import Mathlib

/-!
Shallow embedding of the AI-service document-analysis pipeline.

Python strings are modelled as `List Char` (ASCII payloads); Python floats
as `ℚ` (the arithmetic the code performs on scores is exact decimal
arithmetic, faithfully represented by rationals); fallible operations
return `Option`/`Except`.

The pattern-matching service (`src/ai_service/services/pattern_matcher.py`)
uses regexes of the single shape `(?i)\b(alt1|alt2|...)\b` where every
alternative is a literal (dots escaped) that starts and ends with a word
character.  For such patterns, `re.search` succeeds on a line iff some
alternative occurs, case-insensitively, as a substring of the line with a
non-word character (or the line boundary) on both sides.  The embedding
implements exactly that characterisation.
-/

namespace PatternMatcher

/-- Python `\w` on ASCII text: letters, digits and underscore. -/
def isWordChar (c : Char) : Bool :=
  c.isAlpha || c.isDigit || c == '_'

/-- Python `str.lower` on ASCII text. -/
def lowerL (s : List Char) : List Char := s.map Char.toLower

/-- Python `str.strip` whitespace set. -/
def isPySpace (c : Char) : Bool :=
  c == ' ' || c == '\t' || c == '\n' || c == '\r' || c == '\x0b' || c == '\x0c'

/-- Python `str.strip()`: drop leading and trailing whitespace. -/
def pyStrip (s : List Char) : List Char :=
  ((s.dropWhile isPySpace).reverse.dropWhile isPySpace).reverse

/-- Python `text.split('\n')`: always at least one (possibly empty) line. -/
def splitLines : List Char → List (List Char)
  | [] => [[]]
  | c :: rest =>
    if c == '\n' then [] :: splitLines rest
    else
      match splitLines rest with
      | [] => [[c]]
      | l :: ls => (c :: l) :: ls

/-- Convert a Lean string literal to the `List Char` text representation. -/
def strL (s : String) : List Char := s.data

/-- True when the character at index `i` is absent or not a word character
(out-of-bounds counts as a boundary, like `re` treats line ends). -/
def nonWordAt (s : List Char) (i : Nat) : Bool :=
  !isWordChar (s.getD i ' ')

/-- The literal alternative `alt` (already lowercase, starting and ending in
a word character) matches at position `i` of `s` with `\b` on both sides. -/
def matchAt (s alt : List Char) (i : Nat) : Bool :=
  alt.isPrefixOf (s.drop i) && (i == 0 || nonWordAt s (i - 1)) && nonWordAt s (i + alt.length)

/-- `re.search` of a compiled `(?i)\b(alt1|...|altn)\b` pattern on `s`. -/
def searchAlts (alts : List (List Char)) (s : List Char) : Bool :=
  let ls := lowerL s
  alts.any fun alt => (List.range (ls.length + 1)).any fun i => matchAt ls alt i

/-- `PatternMatcher.ENTITY_PATTERNS`: each named pattern as its list of
literal alternatives (the `(?i)\b(...)\b` wrapper is implemented by
`searchAlts`). -/
def ENTITY_PATTERNS : List (String × List String) := [
  ("israel", ["israel", "israeli"]),
  ("unsubstantiated", ["unsubstantiated", "not substantiated", "unvalidated"]),
  ("substantiated", ["substantiated", "validated", "confirmed"]),
  ("complaint", ["complaint", "adverse event", "ae", "report"]),
  ("usa", ["usa", "united states", "u.s.a", "america", "american"]),
  ("uk", ["uk", "united kingdom", "u.k", "britain", "british"]),
  ("germany", ["germany", "german", "deutschland"]),
  ("france", ["france", "french"]),
  ("italy", ["italy", "italian"]),
  ("spain", ["spain", "spanish"]),
  ("canada", ["canada", "canadian"]),
  ("australia", ["australia", "australian"]),
  ("japan", ["japan", "japanese"]),
  ("china", ["china", "chinese"])]

/-- The compiled pattern of a named entity, if the name is in the table. -/
def entityAlts (e : String) : Option (List (List Char)) :=
  (ENTITY_PATTERNS.lookup e).map fun alts => alts.map String.data

/-- `PatternMatcher.is_counting_query` keyword patterns. -/
def counting_keywords : List String :=
  ["how many", "count", "number of", "total", "sum"]

/-- `PatternMatcher.is_counting_query`. -/
def is_counting_query (query : List Char) : Bool :=
  counting_keywords.any fun kw => searchAlts [kw.data] query

/-- `PatternMatcher.extract_entities_from_query`: table order is preserved
(the Python dict iterates in insertion order). -/
def extract_entities_from_query (query : List Char) : List String :=
  (ENTITY_PATTERNS.filter fun p => searchAlts (p.2.map String.data) query).map Prod.fst

/-- First-occurrence deduplication, as a Python dict comprehension keyed by
entity performs on the `entities` list. -/
def eraseDupsAux (seen : List String) : List String → List String
  | [] => []
  | e :: rest =>
    if seen.contains e then eraseDupsAux seen rest
    else e :: eraseDupsAux (e :: seen) rest

/-- The `patterns` dict of `scan_document`: requested entities that are in
the table, first occurrences only, paired with their alternatives. -/
def requestedPatterns (entities : List String) : List (String × List (List Char)) :=
  (eraseDupsAux [] entities).filterMap fun e => (entityAlts e).map fun alts => (e, alts)

/-- `MatchResult` dataclass. -/
structure MatchResult where
  line_number : Nat
  line_text : List Char
  matched_entities : List String
  context : List Char
deriving DecidableEq

/-- The context window of `scan_document`: `context_lines` lines before and
after line `i`, clipped to the document, joined with newlines. -/
def contextOf (lines : List (List Char)) (context_lines i : Nat) : List Char :=
  let start := i - context_lines
  let stop := min lines.length (i + context_lines + 1)
  List.intercalate ['\n'] ((lines.drop start).take (stop - start))

/-- One iteration of the `scan_document` line loop: the produced match, if
every requested (known) entity pattern matches line `i`. -/
def lineResult (patterns : List (String × List (List Char))) (lines : List (List Char))
    (context_lines i : Nat) : Option MatchResult :=
  let line := lines.getD i []
  let matched := (patterns.filter fun p => searchAlts p.2 line).map Prod.fst
  if matched.length = patterns.length then
    some { line_number := i + 1, line_text := pyStrip line,
           matched_entities := matched, context := contextOf lines context_lines i }
  else none

/-- `PatternMatcher.scan_document`. -/
def scan_document (text : List Char) (entities : List String)
    (context_lines : Nat := 2) : List MatchResult :=
  if entities.isEmpty then []
  else
    let lines := splitLines text
    let patterns := requestedPatterns entities
    (List.range lines.length).filterMap fun i => lineResult patterns lines context_lines i

/-- Python `', '.join(entities)`. -/
def joinComma (entities : List String) : List Char :=
  List.intercalate (strL ", ") (entities.map strL)

/-- Decimal rendering of a natural, Python `str(int)`. -/
def natL (n : Nat) : List Char := strL (toString n)

/-- `PatternMatcher._generate_summary`. -/
def generate_summary (query : List Char) (entities : List String)
    (matchList : List MatchResult) : List Char :=
  if matchList.isEmpty then
    strL "No matches found for entities: " ++ joinComma entities
  else
    let base := strL "Found " ++ natL matchList.length ++
      strL " occurrences matching all entities: " ++ joinComma entities
    let samples := (matchList.take 3).map fun m =>
      strL "\n- Line " ++ natL m.line_number ++ strL ": " ++
        m.line_text.take 100 ++ strL "..."
    base ++ strL "\n\nSample matches:" ++ samples.flatten

/-- The result dict of `execute_counting_search`. -/
structure CountingSearchResult where
  is_counting_query : Bool
  query : List Char
  entities_searched : List String
  total_matches : Nat
  matchList : List MatchResult
  summary : List Char
deriving DecidableEq

/-- `PatternMatcher.execute_counting_search`. -/
def execute_counting_search (query text : List Char) : CountingSearchResult :=
  let entities := extract_entities_from_query query
  let found := scan_document text entities
  { is_counting_query := true
    query := query
    entities_searched := entities
    total_matches := found.length
    matchList := found.take 50
    summary := generate_summary query entities found }

/-- `PatternMatcher.should_use_pattern_matching`. -/
def should_use_pattern_matching (query : List Char) : Bool × List String :=
  let is_counting := is_counting_query query
  let entities := extract_entities_from_query query
  (is_counting && decide (entities.length > 0), entities)

end PatternMatcher

namespace Agent3

open PatternMatcher (strL lowerL pyStrip isPySpace)

/-- JSON values as returned by `json.loads`. -/
inductive JVal where
  | jnull
  | jbool (b : Bool)
  | jnum (q : ℚ)
  | jstr (s : String)
  | jarr (items : List JVal)
  | jobj (fields : List (String × JVal))

/-- Python `str.find(c)`: first index, `-1` when absent. -/
def pyFind (s : List Char) (c : Char) : Int :=
  match s.findIdx? (· == c) with
  | some i => (i : Int)
  | none => -1

/-- Python `str.rfind(c)`: last index, `-1` when absent. -/
def pyRFind (s : List Char) (c : Char) : Int :=
  match s.reverse.findIdx? (· == c) with
  | some j => ((s.length - 1 - j : Nat) : Int)
  | none => -1

/-- Python slice-bound normalisation for a sequence of length `len`. -/
def sliceIndex (len : Nat) (i : Int) : Nat :=
  if i < 0 then (max 0 (len + i)).toNat else min len i.toNat

/-- Python `s[start:stop]` with possibly negative bounds. -/
def pySlice (s : List Char) (start stop : Int) : List Char :=
  (s.take (sliceIndex s.length stop)).drop (sliceIndex s.length start)

/-- The JSON-extraction step shared by all Agent 3 parsing sites:
`response[response.find('\x7b') : response.rfind('\x7d') + 1]`. -/
def extractBraceSlice (response : List Char) : List Char :=
  pySlice response (pyFind response '\x7b') (pyRFind response '\x7d' + 1)

/-- Python `result.get(key, default)`: succeeds only on a dict (on any other
JSON value, attribute lookup of `get` raises). -/
def jGetD (v : JVal) (key : String) (dflt : JVal) : Except String JVal :=
  match v with
  | .jobj fields => .ok ((fields.lookup key).getD dflt)
  | _ => .error "AttributeError: get"

/-- The `\x7bfinal_answer, confidence_score\x7d` dict built by
`_determine_final_answer` on the success path. -/
structure FinalAnswer where
  final_answer : JVal
  confidence_score : ℚ

/-- The body of the `try` block of `_determine_final_answer`, with the
library functions `json.loads` and `float` abstracted as the parameters
`loads` and `toFloat` (any raise inside is an `.error`). -/
def finalAnswerAttempt (loads : List Char → Except String JVal)
    (toFloat : JVal → Except String ℚ)
    (agent_2_output : String) (response : List Char) : Except String FinalAnswer := do
  let v ← loads (extractBraceSlice response)
  let fa ← jGetD v "final_answer" (.jstr agent_2_output)
  let cs ← jGetD v "confidence_score" (.jnum (8/10))
  let csq ← toFloat cs
  pure ⟨fa, csq⟩

/-- `Agent3Evaluator._determine_final_answer`; `response` is the text the
reasoning service returned for the assembled prompt (the service call is
external, so the response is a parameter). -/
def determine_final_answer (loads : List Char → Except String JVal)
    (toFloat : JVal → Except String ℚ)
    (agent_1_output agent_2_output prompt : String)
    (response : List Char) : FinalAnswer :=
  match finalAnswerAttempt loads toFloat agent_2_output response with
  | .ok r => r
  | .error _ => ⟨.jstr agent_2_output, 7/10⟩

/-- A `\x7bscore, justification\x7d` metric evaluation result. -/
structure MetricResult where
  score : ℚ
  justification : JVal

/-- The `try` block shared verbatim by the three metric evaluators:
slice out the braces, `json.loads`, `float(result.get("score", 0.7))`,
`result.get("justification", defaultJust)`. -/
def metricAttempt (loads : List Char → Except String JVal)
    (toFloat : JVal → Except String ℚ)
    (defaultJust : String) (response : List Char) : Except String (ℚ × JVal) := do
  let v ← loads (extractBraceSlice response)
  let s ← jGetD v "score" (.jnum (7/10))
  let sq ← toFloat s
  let j ← jGetD v "justification" (.jstr defaultJust)
  pure (sq, j)

/-- Shared success/except shape of the three metric evaluators. -/
def evaluate_metric (loads : List Char → Except String JVal)
    (toFloat : JVal → Except String ℚ)
    (defaultJust errPrefix : String) (response : List Char) : MetricResult :=
  match metricAttempt loads toFloat defaultJust response with
  | .ok (s, j) => ⟨s, j⟩
  | .error e => ⟨7/10, .jstr (errPrefix ++ e)⟩

/-- `Agent3Evaluator._evaluate_groundedness` (service response abstracted). -/
def evaluate_groundedness (loads : List Char → Except String JVal)
    (toFloat : JVal → Except String ℚ)
    (final_answer prompt doc_context agent_1_output : String)
    (response : List Char) : MetricResult :=
  evaluate_metric loads toFloat "Unable to evaluate groundedness"
    "Groundedness evaluation error: " response

/-- `Agent3Evaluator._evaluate_accuracy` (service response abstracted). -/
def evaluate_accuracy (loads : List Char → Except String JVal)
    (toFloat : JVal → Except String ℚ)
    (final_answer prompt doc_context agent_1_output : String)
    (response : List Char) : MetricResult :=
  evaluate_metric loads toFloat "Unable to evaluate accuracy"
    "Accuracy evaluation error: " response

/-- `Agent3Evaluator._evaluate_relevance` (service response abstracted). -/
def evaluate_relevance (loads : List Char → Except String JVal)
    (toFloat : JVal → Except String ℚ)
    (final_answer prompt : String)
    (response : List Char) : MetricResult :=
  evaluate_metric loads toFloat "Unable to evaluate relevance"
    "Relevance evaluation error: " response

/-- The `Metrics` pydantic model (floats as rationals). -/
structure Metrics where
  confidence_score : ℚ
  groundedness : ℚ
  groundedness_justification : JVal
  accuracy : ℚ
  accuracy_justification : JVal
  relevance : ℚ
  relevance_justification : JVal
  sources_used : Nat
  overall_score : ℚ
  needs_review : Bool

/-- The metric-combination tail of `Agent3Evaluator._evaluate_answers`:
`overall_score = (groundedness + accuracy + relevance) / 3.0` and
`needs_review = overall_score < 0.8`. -/
def combineMetrics (confidence_score : ℚ) (g a r : MetricResult)
    (sources_used : Nat) : Metrics :=
  let groundedness := g.score
  let accuracy := a.score
  let relevance := r.score
  let overall_score := (groundedness + accuracy + relevance) / 3
  let needs_review := decide (overall_score < 8/10)
  { confidence_score := confidence_score
    groundedness := groundedness
    groundedness_justification := g.justification
    accuracy := accuracy
    accuracy_justification := a.justification
    relevance := relevance
    relevance_justification := r.justification
    sources_used := sources_used
    overall_score := overall_score
    needs_review := needs_review }

/-- One page of an extracted document. -/
structure Page where
  page_num : Nat
  text : List Char
deriving DecidableEq

/-- A `document_texts` entry as consumed by `_extract_sections_used`. -/
structure DocumentText where
  file_name : String
  pages : List Page
deriving DecidableEq

/-- The `SectionUsed` pydantic model. -/
structure SectionUsed where
  file : String
  page : Nat
  text_snippet : List Char
deriving DecidableEq

/-- Python `str.split()` with no argument: whitespace runs separate words,
empty words are dropped. -/
def pySplitWS (s : List Char) : List (List Char) :=
  let step := fun (acc : List (List Char) × List Char) (c : Char) =>
    if isPySpace c then
      (if acc.2.isEmpty then acc else (acc.1 ++ [acc.2], []))
    else (acc.1, acc.2 ++ [c])
  let fin := s.foldl step ([], [])
  if fin.2.isEmpty then fin.1 else fin.1 ++ [fin.2]

/-- The per-page relevance test of `_extract_sections_used`:
`any(word in page_text for word in prompt_lower.split() if len(word) > 3)`. -/
def isSubstring (w s : List Char) : Bool :=
  (List.range (s.length + 1)).any fun i => w.isPrefixOf (s.drop i)

/-- Words of the lowered prompt that are longer than 3 characters. -/
def promptWords (prompt : List Char) : List (List Char) :=
  (pySplitWS (lowerL prompt)).filter fun w => decide (w.length > 3)

/-- Relevance of one page text to the prompt. -/
def pageRelevant (prompt pageText : List Char) : Bool :=
  (promptWords prompt).any fun w => isSubstring w (lowerL pageText)

/-- The snippet a relevant page contributes: the stripped first 200
characters plus an ellipsis, or nothing when the stripped text is empty. -/
def sectionOfPage (file : String) (p : Page) : Option SectionUsed :=
  let snippet := pyStrip (p.text.take 200)
  if snippet.isEmpty then none
  else some ⟨file, p.page_num, snippet ++ strL "..."⟩

/-- The inner page loop of `_extract_sections_used`, including the
`len(sections) >= 5` break. -/
def extractFromPages (prompt : List Char) (file : String)
    (sections : List SectionUsed) : List Page → List SectionUsed
  | [] => sections
  | p :: ps =>
    if pageRelevant prompt p.text then
      let sections' :=
        match sectionOfPage file p with
        | some s => sections ++ [s]
        | none => sections
      if sections'.length ≥ 5 then sections'
      else extractFromPages prompt file sections' ps
    else extractFromPages prompt file sections ps

/-- The outer document loop of `_extract_sections_used`. -/
def extractFromDocs (prompt : List Char) (sections : List SectionUsed) :
    List DocumentText → List SectionUsed
  | [] => sections
  | d :: ds =>
    let sections' := extractFromPages prompt d.file_name sections d.pages
    if sections'.length ≥ 5 then sections'
    else extractFromDocs prompt sections' ds

/-- `Agent3Evaluator._extract_sections_used`; the source lowercases
`final_answer` into `answer_lower` but never uses it. -/
def extract_sections_used (final_answer : List Char)
    (document_texts : List DocumentText) (prompt : List Char) : List SectionUsed :=
  extractFromDocs prompt [] document_texts

end Agent3

namespace PatternMatcher

/-- Whether the named entity's compiled pattern matches the given line
(false when the name has no compiled pattern). -/
def entityMatchesLine (e : String) (line : List Char) : Bool :=
  match entityAlts e with
  | some alts => searchAlts alts line
  | none => false

theorem length_filter_eq_iff {α : Type} (p : α → Bool) (l : List α) :
    (l.filter p).length = l.length ↔ ∀ a ∈ l, p a = true := by
  constructor
  · intro h
    exact List.filter_eq_self.mp ((List.filter_sublist l).eq_of_length h)
  · intro h
    rw [List.filter_eq_self.mpr h]

/-- C2: `should_use_pattern_matching` selects the fast path iff the prompt
is a counting query and at least one known entity pattern matched it; in
particular a prompt that is not a counting query never takes the fast
path, whatever entities it mentions. -/
theorem should_use_pattern_matching_spec (query : List Char) :
    ((should_use_pattern_matching query).1 = true ↔
      (is_counting_query query = true ∧ extract_entities_from_query query ≠ [])) ∧
    (should_use_pattern_matching query).2 = extract_entities_from_query query := by
  refine ⟨?_, rfl⟩
  show (is_counting_query query && decide (_ > 0)) = true ↔ _
  rw [Bool.and_eq_true, decide_eq_true_iff]
  rw [gt_iff_lt, List.length_pos]

/-- C5: end-to-end counting scenario: the prompt is recognised as a
counting query, its extracted entity set is exactly `israel`, scanning the
three-line document with that one entity reports exactly the two lines 1
and 3, and the fast path is selected. -/
theorem end_to_end_counting_scenario :
    is_counting_query (strL "How many complaints are from Israel?") = true ∧
    extract_entities_from_query (strL "How many complaints are from Israel?") = ["israel"] ∧
    (scan_document
        (strL "Israel complaint line one\nUSA complaint line two\nIsrael and USA both here")
        ["israel"]).map MatchResult.line_number = [1, 3] ∧
    (scan_document
        (strL "Israel complaint line one\nUSA complaint line two\nIsrael and USA both here")
        ["israel"]).length = 2 ∧
    (should_use_pattern_matching (strL "How many complaints are from Israel?")).1 = true := by
  decide

end PatternMatcher

namespace Agent3

/-- C3: the constructed metrics always satisfy
`overall_score = (groundedness + accuracy + relevance) / 3` and
`needs_review ↔ overall_score < 0.8`, for every valid score triple in
`[0, 1]`; an overall score of exactly `0.8` does not need review. -/
theorem combineMetrics_invariant (conf g a r : ℚ) (jg ja jr : JVal) (n : Nat)
    (hg0 : 0 ≤ g) (hg1 : g ≤ 1) (ha0 : 0 ≤ a) (ha1 : a ≤ 1)
    (hr0 : 0 ≤ r) (hr1 : r ≤ 1) :
    (combineMetrics conf ⟨g, jg⟩ ⟨a, ja⟩ ⟨r, jr⟩ n).overall_score = (g + a + r) / 3 ∧
    ((combineMetrics conf ⟨g, jg⟩ ⟨a, ja⟩ ⟨r, jr⟩ n).needs_review = true ↔
      (combineMetrics conf ⟨g, jg⟩ ⟨a, ja⟩ ⟨r, jr⟩ n).overall_score < 8/10) ∧
    ((combineMetrics conf ⟨g, jg⟩ ⟨a, ja⟩ ⟨r, jr⟩ n).overall_score = 8/10 →
      (combineMetrics conf ⟨g, jg⟩ ⟨a, ja⟩ ⟨r, jr⟩ n).needs_review = false) := by
  refine ⟨rfl, ?_, ?_⟩
  · simp [combineMetrics]
  · intro h
    simp only [combineMetrics] at h ⊢
    rw [h]
    simp

/-- Witness for C3 at the boundary triple `(0.8, 0.8, 0.8)`. -/
theorem combineMetrics_invariant_witness :
    (combineMetrics 1 ⟨4/5, .jnull⟩ ⟨4/5, .jnull⟩ ⟨4/5, .jnull⟩ 2).overall_score = 4/5 ∧
    (combineMetrics 1 ⟨4/5, .jnull⟩ ⟨4/5, .jnull⟩ ⟨4/5, .jnull⟩ 2).needs_review = false := by
  have h := combineMetrics_invariant 1 (4/5) (4/5) (4/5) .jnull .jnull .jnull 2
    (by norm_num) (by norm_num) (by norm_num) (by norm_num) (by norm_num) (by norm_num)
  refine ⟨by rw [h.1]; norm_num, h.2.2 (by rw [h.1]; norm_num)⟩

end Agent3

namespace PatternMatcher

theorem contains_eq_decide_mem (a : String) (l : List String) :
    l.contains a = decide (a ∈ l) :=
  List.elem_eq_mem a l

theorem mem_eraseDupsAux_iff {e : String} {l : List String} :
    ∀ {seen : List String}, e ∈ eraseDupsAux seen l ↔ (e ∈ l ∧ e ∉ seen) := by
  induction l with
  | nil => intro seen; simp [eraseDupsAux]
  | cons a rest ih =>
    intro seen
    have hstep : eraseDupsAux seen (a :: rest) =
        if a ∈ seen then eraseDupsAux seen rest
        else a :: eraseDupsAux (a :: seen) rest := by
      simp only [eraseDupsAux, contains_eq_decide_mem]
      by_cases hs : a ∈ seen <;> simp [hs]
    rw [hstep]
    by_cases hs : a ∈ seen
    · rw [if_pos hs, ih]
      simp only [List.mem_cons]
      constructor
      · rintro ⟨hr, hn⟩; exact ⟨Or.inr hr, hn⟩
      · rintro ⟨rfl | hr, hn⟩
        · exact absurd hs hn
        · exact ⟨hr, hn⟩
    · rw [if_neg hs]
      simp only [List.mem_cons, ih]
      constructor
      · rintro (rfl | ⟨hr, hn⟩)
        · exact ⟨Or.inl rfl, hs⟩
        · push_neg at hn
          exact ⟨Or.inr hr, hn.2⟩
      · rintro ⟨rfl | hr, hn⟩
        · exact Or.inl rfl
        · by_cases hea : e = a
          · exact Or.inl hea
          · refine Or.inr ⟨hr, ?_⟩
            push_neg
            exact ⟨hea, hn⟩

theorem mem_requestedPatterns_iff {entities : List String} {p : String × List (List Char)} :
    p ∈ requestedPatterns entities ↔ (p.1 ∈ entities ∧ entityAlts p.1 = some p.2) := by
  unfold requestedPatterns
  rw [List.mem_filterMap]
  constructor
  · rintro ⟨e, he, hf⟩
    cases h : entityAlts e with
    | none => rw [h] at hf; simp at hf
    | some alts =>
      rw [h, Option.map_some'] at hf
      obtain rfl := Option.some.inj hf
      exact ⟨(mem_eraseDupsAux_iff.mp he).1, h⟩
  · rintro ⟨hmem, halts⟩
    refine ⟨p.1, mem_eraseDupsAux_iff.mpr ⟨hmem, by simp⟩, ?_⟩
    rw [halts, Option.map_some', Prod.mk.eta]

/-- C10: when `scan_document` is called with a non-empty entity list none
of whose names are in the pattern table, the filtered pattern set is empty
and every line of the text is reported as a match with an empty
`matched_entities` list; calling it with an empty entity list returns no
matches at all. -/
theorem scan_document_unknown_entities (text : List Char) (entities : List String)
    (hne : entities ≠ [])
    (hunk : ∀ e ∈ entities, entityAlts e = none) :
    (scan_document text entities).map (fun m => (m.line_number, m.matched_entities)) =
      (List.range (splitLines text).length).map (fun i => (i + 1, ([] : List String))) ∧
    scan_document text [] = [] := by
  refine ⟨?_, rfl⟩
  have hpat : requestedPatterns entities = [] := by
    unfold requestedPatterns
    rw [List.filterMap_eq_nil_iff]
    intro e he
    rw [hunk e (mem_eraseDupsAux_iff.mp he).1]
    rfl
  have hbody : scan_document text entities =
      (List.range (splitLines text).length).filterMap
        (fun i => lineResult (requestedPatterns entities) (splitLines text) 2 i) := by
    unfold scan_document
    rw [if_neg (by rw [List.isEmpty_iff]; exact hne)]
  rw [hbody, hpat]
  have hline : ∀ i, lineResult [] (splitLines text) 2 i =
      some ⟨i + 1, pyStrip ((splitLines text).getD i []), [],
            contextOf (splitLines text) 2 i⟩ := by
    intro i
    unfold lineResult
    rfl
  have hfm : (List.range (splitLines text).length).filterMap
      (fun i => lineResult [] (splitLines text) 2 i) =
      (List.range (splitLines text).length).map
        (fun i => (⟨i + 1, pyStrip ((splitLines text).getD i []), [],
          contextOf (splitLines text) 2 i⟩ : MatchResult)) := by
    rw [← List.filterMap_eq_map]
    apply List.filterMap_congr
    intro i _
    exact hline i
  rw [hfm, List.map_map]
  rfl

/-- Witness for C10 with the two-line text and the unknown entity `zzz`. -/
theorem scan_document_unknown_entities_witness :
    (scan_document (strL "hello\nworld") ["zzz"]).map
        (fun m => (m.line_number, m.matched_entities)) = [(1, []), (2, [])] ∧
    scan_document (strL "hello\nworld") [] = [] := by
  have h := scan_document_unknown_entities (strL "hello\nworld") ["zzz"]
    (by decide) (by decide)
  exact ⟨by rw [h.1]; decide, h.2⟩

/-- C9: `execute_counting_search` caps the returned match list at 50 while
`total_matches` is the full count, and its summary (in the non-empty case)
reports the total count and the first 3 matches, each line truncated to
100 characters. -/
theorem execute_counting_search_spec (query text : List Char) :
    (execute_counting_search query text).total_matches =
      (scan_document text (extract_entities_from_query query)).length ∧
    (execute_counting_search query text).matchList =
      (scan_document text (extract_entities_from_query query)).take 50 ∧
    (execute_counting_search query text).matchList.length ≤ 50 ∧
    (execute_counting_search query text).summary =
      generate_summary query (extract_entities_from_query query)
        (scan_document text (extract_entities_from_query query)) ∧
    ((scan_document text (extract_entities_from_query query)).take 3).length ≤ 3 ∧
    (scan_document text (extract_entities_from_query query) ≠ [] →
      (execute_counting_search query text).summary =
        strL "Found " ++ natL (scan_document text (extract_entities_from_query query)).length ++
        strL " occurrences matching all entities: " ++
        joinComma (extract_entities_from_query query) ++
        strL "\n\nSample matches:" ++
        (((scan_document text (extract_entities_from_query query)).take 3).map fun m =>
          strL "\n- Line " ++ natL m.line_number ++ strL ": " ++
            m.line_text.take 100 ++ strL "...").flatten) := by
  refine ⟨rfl, rfl, ?_, rfl, ?_, ?_⟩
  · rw [show (execute_counting_search query text).matchList =
        (scan_document text (extract_entities_from_query query)).take 50 from rfl]
    rw [List.length_take]
    exact min_le_left _ _
  · rw [List.length_take]
    exact min_le_left _ _
  · intro hne
    have hsum : (execute_counting_search query text).summary =
        generate_summary query (extract_entities_from_query query)
          (scan_document text (extract_entities_from_query query)) := rfl
    rw [hsum]
    unfold generate_summary
    rw [if_neg (by rw [List.isEmpty_iff]; exact hne)]

/-- Witness for C9 on a one-line document matching `israel`. -/
theorem execute_counting_search_spec_witness :
    (execute_counting_search (strL "how many israel") (strL "Israel a")).summary =
      strL "Found " ++
      natL (scan_document (strL "Israel a")
        (extract_entities_from_query (strL "how many israel"))).length ++
      strL " occurrences matching all entities: " ++
      joinComma (extract_entities_from_query (strL "how many israel")) ++
      strL "\n\nSample matches:" ++
      (((scan_document (strL "Israel a")
          (extract_entities_from_query (strL "how many israel"))).take 3).map fun m =>
        strL "\n- Line " ++ natL m.line_number ++ strL ": " ++
          m.line_text.take 100 ++ strL "...").flatten :=
  (execute_counting_search_spec (strL "how many israel") (strL "Israel a")).2.2.2.2.2
    (by decide)

end PatternMatcher

namespace Agent3

open PatternMatcher (strL)

theorem extractBraceSlice_of_no_braces (response : List Char)
    (hr : '\x7d' ∉ response) : extractBraceSlice response = [] := by
  have hfind : pyRFind response '\x7d' = -1 := by
    unfold pyRFind
    rw [List.findIdx?_eq_none_iff.mpr ?_]
    intro x hx
    rw [List.mem_reverse] at hx
    simp only [beq_eq_false_iff_ne, ne_eq]
    intro hxe
    exact hr (hxe ▸ hx)
  unfold extractBraceSlice pySlice
  rw [hfind]
  have hstop : sliceIndex response.length (-1 + 1) = 0 := by
    unfold sliceIndex
    norm_num
  rw [hstop]
  simp

/-- C4: whenever the `try` block of `_determine_final_answer` fails — the
embedded JSON cannot be parsed, the parsed value is not a dict, or the
confidence score cannot be converted to a float — the step returns the
condensed (Agent 2) answer with `confidence_score = 0.7`; it is a total
function, so no exception escapes.  A response containing no brace pair
yields the empty extracted JSON string, which no JSON parser accepts. -/
theorem determine_final_answer_fallback
    (loads : List Char → Except String JVal) (toFloat : JVal → Except String ℚ)
    (agent_1_output agent_2_output prompt : String) (response : List Char) (e : String) :
    (finalAnswerAttempt loads toFloat agent_2_output response = .error e →
      determine_final_answer loads toFloat agent_1_output agent_2_output prompt response =
        ⟨.jstr agent_2_output, 7/10⟩) ∧
    ('\x7d' ∉ response → extractBraceSlice response = []) := by
  constructor
  · intro hfail
    unfold determine_final_answer
    rw [hfail]
  · exact extractBraceSlice_of_no_braces response

/-- Witness for C4 with a brace-free response and an always-failing parse. -/
theorem determine_final_answer_fallback_witness :
    determine_final_answer (fun _ => .error "Expecting value")
      (fun _ => .error "float") "draft" "condensed" "question"
      (strL "no json here") = ⟨.jstr "condensed", 7/10⟩ ∧
    extractBraceSlice (strL "no json here") = [] := by
  have h := determine_final_answer_fallback (fun _ => .error "Expecting value")
    (fun _ => .error "float") "draft" "condensed" "question"
    (strL "no json here") "Expecting value"
  exact ⟨h.1 rfl, h.2 (by decide)⟩

/-- C6: in each of the three metric evaluations, any failure of the
`try` block (JSON extraction, parsing, or score conversion) produces score
`0.7` with an error justification string naming the metric, instead of an
exception aborting the pipeline. -/
theorem evaluate_metric_fallbacks
    (loads : List Char → Except String JVal) (toFloat : JVal → Except String ℚ)
    (final_answer prompt doc_context agent_1_output : String)
    (response : List Char) (e : String) :
    (metricAttempt loads toFloat "Unable to evaluate groundedness" response = .error e →
      evaluate_groundedness loads toFloat final_answer prompt doc_context agent_1_output
          response = ⟨7/10, .jstr ("Groundedness evaluation error: " ++ e)⟩) ∧
    (metricAttempt loads toFloat "Unable to evaluate accuracy" response = .error e →
      evaluate_accuracy loads toFloat final_answer prompt doc_context agent_1_output
          response = ⟨7/10, .jstr ("Accuracy evaluation error: " ++ e)⟩) ∧
    (metricAttempt loads toFloat "Unable to evaluate relevance" response = .error e →
      evaluate_relevance loads toFloat final_answer prompt
          response = ⟨7/10, .jstr ("Relevance evaluation error: " ++ e)⟩) := by
  refine ⟨?_, ?_, ?_⟩
  · intro hfail
    unfold evaluate_groundedness evaluate_metric
    rw [hfail]
  · intro hfail
    unfold evaluate_accuracy evaluate_metric
    rw [hfail]
  · intro hfail
    unfold evaluate_relevance evaluate_metric
    rw [hfail]

/-- Witness for C6 with an always-failing parse on a brace-free response. -/
theorem evaluate_metric_fallbacks_witness :
    evaluate_groundedness (fun _ => .error "Expecting value")
      (fun _ => .error "float") "ans" "q" "docs" "draft" (strL "oops") =
      ⟨7/10, .jstr "Groundedness evaluation error: Expecting value"⟩ ∧
    evaluate_accuracy (fun _ => .error "Expecting value")
      (fun _ => .error "float") "ans" "q" "docs" "draft" (strL "oops") =
      ⟨7/10, .jstr "Accuracy evaluation error: Expecting value"⟩ ∧
    evaluate_relevance (fun _ => .error "Expecting value")
      (fun _ => .error "float") "ans" "q" (strL "oops") =
      ⟨7/10, .jstr "Relevance evaluation error: Expecting value"⟩ := by
  have h := evaluate_metric_fallbacks (fun _ => .error "Expecting value")
    (fun _ => .error "float") "ans" "q" "docs" "draft" (strL "oops") "Expecting value"
  exact ⟨h.1 rfl, h.2.1 rfl, h.2.2 rfl⟩

end Agent3

namespace Agent3

open PatternMatcher (strL lowerL pyStrip)

/-- C8: the evidence extractor's output does not depend on the final
answer (which the source receives but never uses in the relevance test),
and a page passes the relevance test iff some prompt word longer than 3
characters occurs as a case-insensitive substring of the page text. -/
theorem extract_sections_answer_independent (a1 a2 : List Char)
    (docs : List DocumentText) (prompt : List Char) :
    extract_sections_used a1 docs prompt = extract_sections_used a2 docs prompt ∧
    ∀ pageText : List Char,
      (pageRelevant prompt pageText = true ↔
        ∃ w ∈ pySplitWS (lowerL prompt), 3 < w.length ∧
          isSubstring w (lowerL pageText) = true) := by
  refine ⟨rfl, fun pageText => ?_⟩
  unfold pageRelevant promptWords
  rw [List.any_eq_true]
  constructor
  · rintro ⟨w, hw, hsub⟩
    rw [List.mem_filter] at hw
    exact ⟨w, hw.1, by simpa using hw.2, hsub⟩
  · rintro ⟨w, hw, hlen, hsub⟩
    exact ⟨w, List.mem_filter.mpr ⟨hw, by simpa using hlen⟩, hsub⟩

theorem sectionOfPage_eq_some {file : String} {p : Page} {s : SectionUsed}
    (h : sectionOfPage file p = some s) :
    pyStrip (p.text.take 200) ≠ [] ∧
    s = ⟨file, p.page_num, pyStrip (p.text.take 200) ++ strL "..."⟩ := by
  simp only [sectionOfPage] at h
  split at h
  · cases h
  · next he =>
    refine ⟨fun hnil => he (by rw [List.isEmpty_iff]; exact hnil), ?_⟩
    exact (Option.some.inj h).symm

theorem extractFromPages_length_le (prompt : List Char) (file : String) :
    ∀ (pages : List Page) (init : List SectionUsed), init.length < 5 →
      (extractFromPages prompt file init pages).length ≤ 5 := by
  intro pages
  induction pages with
  | nil => intro init h; exact Nat.le_of_lt h
  | cons p ps ih =>
    intro init h
    simp only [extractFromPages]
    by_cases hrel : pageRelevant prompt p.text = true
    · rw [if_pos hrel]
      cases hsec : sectionOfPage file p with
      | some s =>
        simp only [hsec]
        by_cases h5 : (init ++ [s]).length ≥ 5
        · rw [if_pos h5]
          simp only [List.length_append, List.length_singleton]
          omega
        · rw [if_neg h5]
          apply ih
          simp only [List.length_append, List.length_singleton] at h5 ⊢
          omega
      | none =>
        simp only [hsec]
        rw [if_neg (by omega)]
        exact ih _ h
    · rw [if_neg hrel]
      exact ih _ h

theorem extractFromDocs_length_le (prompt : List Char) :
    ∀ (docs : List DocumentText) (init : List SectionUsed), init.length < 5 →
      (extractFromDocs prompt init docs).length ≤ 5 := by
  intro docs
  induction docs with
  | nil => intro init h; exact Nat.le_of_lt h
  | cons d ds ih =>
    intro init h
    simp only [extractFromDocs]
    by_cases h5 : (extractFromPages prompt d.file_name init d.pages).length ≥ 5
    · rw [if_pos h5]
      exact extractFromPages_length_le prompt d.file_name d.pages init h
    · rw [if_neg h5]
      exact ih _ (Nat.not_le.mp h5)

theorem mem_extractFromPages {prompt : List Char} {file : String} {s : SectionUsed} :
    ∀ {pages : List Page} {init : List SectionUsed},
      s ∈ extractFromPages prompt file init pages →
      s ∈ init ∨ ∃ p ∈ pages, sectionOfPage file p = some s := by
  intro pages
  induction pages with
  | nil => intro init h; exact Or.inl h
  | cons p ps ih =>
    intro init h
    simp only [extractFromPages] at h
    by_cases hrel : pageRelevant prompt p.text = true
    · rw [if_pos hrel] at h
      cases hsec : sectionOfPage file p with
      | some s' =>
        simp only [hsec] at h
        have hmerge : s ∈ init ++ [s'] →
            s ∈ init ∨ ∃ q ∈ p :: ps, sectionOfPage file q = some s := by
          intro hm
          rcases List.mem_append.mp hm with hm | hm
          · exact Or.inl hm
          · obtain rfl := List.mem_singleton.mp hm
            exact Or.inr ⟨p, List.mem_cons_self p ps, hsec⟩
        by_cases h5 : (init ++ [s']).length ≥ 5
        · rw [if_pos h5] at h
          exact hmerge h
        · rw [if_neg h5] at h
          rcases ih h with hm | ⟨q, hq, hqs⟩
          · exact hmerge hm
          · exact Or.inr ⟨q, List.mem_cons_of_mem _ hq, hqs⟩
      | none =>
        simp only [hsec] at h
        split at h
        · exact Or.inl h
        · rcases ih h with hm | ⟨q, hq, hqs⟩
          · exact Or.inl hm
          · exact Or.inr ⟨q, List.mem_cons_of_mem _ hq, hqs⟩
    · rw [if_neg hrel] at h
      rcases ih h with hm | ⟨q, hq, hqs⟩
      · exact Or.inl hm
      · exact Or.inr ⟨q, List.mem_cons_of_mem _ hq, hqs⟩

theorem mem_extractFromDocs {prompt : List Char} {s : SectionUsed} :
    ∀ {docs : List DocumentText} {init : List SectionUsed},
      s ∈ extractFromDocs prompt init docs →
      s ∈ init ∨ ∃ d ∈ docs, ∃ p ∈ d.pages, sectionOfPage d.file_name p = some s := by
  intro docs
  induction docs with
  | nil => intro init h; exact Or.inl h
  | cons d ds ih =>
    intro init h
    simp only [extractFromDocs] at h
    have hpage : s ∈ extractFromPages prompt d.file_name init d.pages →
        s ∈ init ∨ ∃ d' ∈ d :: ds, ∃ p ∈ d'.pages, sectionOfPage d'.file_name p = some s := by
      intro hm
      rcases mem_extractFromPages hm with hm | ⟨p, hp, hps⟩
      · exact Or.inl hm
      · exact Or.inr ⟨d, List.mem_cons_self d ds, p, hp, hps⟩
    split at h
    · exact hpage h
    · rcases ih h with hm | ⟨d', hd', rest⟩
      · exact hpage hm
      · exact Or.inr ⟨d', List.mem_cons_of_mem _ hd', rest⟩

/-- C7 (amended): evidence extraction returns at most 5 `SectionUsed`
entries, scanning documents and pages in order and stopping once 5 are
accumulated (the concrete 6-qualifying-page document yields exactly 5);
each returned entry's snippet is the whitespace-stripped first 200
characters of its page followed by an ellipsis (a relevant page whose
stripped prefix is empty contributes no entry). -/
theorem extract_sections_bounded (fa : List Char) (docs : List DocumentText)
    (prompt : List Char) :
    (extract_sections_used fa docs prompt).length ≤ 5 ∧
    (∀ s ∈ extract_sections_used fa docs prompt,
      ∃ d ∈ docs, ∃ p ∈ d.pages,
        pyStrip (p.text.take 200) ≠ [] ∧
        s = ⟨d.file_name, p.page_num, pyStrip (p.text.take 200) ++ strL "..."⟩) ∧
    (extract_sections_used []
        [⟨"a.pdf", [⟨1, strL "complaints one"⟩, ⟨2, strL "complaints two"⟩,
          ⟨3, strL "complaints three"⟩, ⟨4, strL "complaints four"⟩,
          ⟨5, strL "complaints five"⟩, ⟨6, strL "complaints six"⟩]⟩]
        (strL "What complaints came from Israel")).length = 5 := by
  refine ⟨extractFromDocs_length_le prompt docs [] (by norm_num), ?_, by decide⟩
  intro s hs
  rcases mem_extractFromDocs hs with h | ⟨d, hd, p, hp, hps⟩
  · exact absurd h (List.not_mem_nil s)
  · obtain ⟨hne, rfl⟩ := sectionOfPage_eq_some hps
    exact ⟨d, hd, p, hp, hne, rfl⟩

/-- Witness for C7 (amended) on a one-page document. -/
theorem extract_sections_bounded_witness :
    ∃ d ∈ [(⟨"a.pdf", [⟨1, strL "complaints here"⟩]⟩ : DocumentText)], ∃ p ∈ d.pages,
      pyStrip (p.text.take 200) ≠ [] ∧
      (⟨"a.pdf", 1, strL "complaints here..."⟩ : SectionUsed) =
        ⟨d.file_name, p.page_num, pyStrip (p.text.take 200) ++ strL "..."⟩ :=
  (extract_sections_bounded [] [⟨"a.pdf", [⟨1, strL "complaints here"⟩]⟩]
    (strL "complaints")).2.1 ⟨"a.pdf", 1, strL "complaints here..."⟩ (by decide)

/-- C7 counterexample: the claim's snippet clause fails as stated, because
the source strips whitespace from the 200-character prefix before
appending the ellipsis: a page whose text starts with a space yields a
snippet that is not the page's first 200 characters plus an ellipsis. -/
theorem extract_sections_snippet_cex :
    (extract_sections_used []
        [⟨"a.pdf", [⟨1, strL " complaints here"⟩]⟩] (strL "complaints")).map
      SectionUsed.text_snippet ≠
      [(strL " complaints here").take 200 ++ strL "..."] := by
  decide

end Agent3

namespace PatternMatcher

theorem lineResult_cond_iff (patterns : List (String × List (List Char)))
    (line : List Char) :
    (((patterns.filter fun p => searchAlts p.2 line).map Prod.fst).length =
        patterns.length) ↔
      ∀ p ∈ patterns, searchAlts p.2 line = true := by
  rw [List.length_map]
  exact length_filter_eq_iff _ _

theorem lineResult_eq_some_iff {patterns : List (String × List (List Char))}
    {lines : List (List Char)} {cl i : Nat} {m : MatchResult} :
    lineResult patterns lines cl i = some m ↔
      ((∀ p ∈ patterns, searchAlts p.2 (lines.getD i []) = true) ∧
       m = ⟨i + 1, pyStrip (lines.getD i []),
            ((patterns.filter fun p => searchAlts p.2 (lines.getD i [])).map Prod.fst),
            contextOf lines cl i⟩) := by
  simp only [lineResult]
  split
  · next hc =>
    constructor
    · intro h
      exact ⟨(lineResult_cond_iff patterns (lines.getD i [])).mp hc,
        (Option.some.inj h).symm⟩
    · rintro ⟨hall, rfl⟩
      rfl
  · next hc =>
    constructor
    · intro h
      cases h
    · rintro ⟨hall, rfl⟩
      exact absurd ((lineResult_cond_iff patterns (lines.getD i [])).mpr hall) hc

theorem patterns_all_iff (entities : List String) (line : List Char)
    (hknown : ∀ e ∈ entities, (entityAlts e).isSome) :
    ((∀ p ∈ requestedPatterns entities, searchAlts p.2 line = true) ↔
      ∀ e ∈ entities, entityMatchesLine e line = true) := by
  constructor
  · intro hall e he
    obtain ⟨alts, halts⟩ := Option.isSome_iff_exists.mp (hknown e he)
    have hmem : (e, alts) ∈ requestedPatterns entities :=
      mem_requestedPatterns_iff.mpr ⟨he, halts⟩
    have hsearch := hall _ hmem
    unfold entityMatchesLine
    rw [halts]
    exact hsearch
  · intro hall p hp
    obtain ⟨hmem, halts⟩ := mem_requestedPatterns_iff.mp hp
    have hsearch := hall _ hmem
    unfold entityMatchesLine at hsearch
    rw [halts] at hsearch
    exact hsearch

/-- C1: for every text and every non-empty list of requested entities that
have compiled patterns, `scan_document` reports a `Match` for line `L` iff
every requested entity's pattern individually matches line `L` — the
conjunctive matching law (a line containing only some of the requested
entities is never reported).  Requested names without a compiled pattern
fall outside this law; their behaviour is the subject of C10. -/
theorem scan_document_conjunctive (text : List Char) (entities : List String) (L : Nat)
    (hne : entities ≠ [])
    (hknown : ∀ e ∈ entities, (entityAlts e).isSome) :
    (∃ m ∈ scan_document text entities, m.line_number = L + 1) ↔
      (L < (splitLines text).length ∧
       ∀ e ∈ entities, entityMatchesLine e ((splitLines text).getD L []) = true) := by
  have hbody : scan_document text entities =
      (List.range (splitLines text).length).filterMap
        (fun i => lineResult (requestedPatterns entities) (splitLines text) 2 i) := by
    unfold scan_document
    rw [if_neg (by rw [List.isEmpty_iff]; exact hne)]
  rw [hbody]
  constructor
  · rintro ⟨m, hm, hL⟩
    obtain ⟨i, hi, hres⟩ := List.mem_filterMap.mp hm
    rw [List.mem_range] at hi
    obtain ⟨hall, rfl⟩ := lineResult_eq_some_iff.mp hres
    have hiL : i = L := by simpa using hL
    subst hiL
    exact ⟨hi, (patterns_all_iff entities _ hknown).mp hall⟩
  · rintro ⟨hL, hall⟩
    exact ⟨_, List.mem_filterMap.mpr ⟨L, List.mem_range.mpr hL,
      lineResult_eq_some_iff.mpr
        ⟨(patterns_all_iff entities _ hknown).mpr hall, rfl⟩⟩, rfl⟩

/-- Witness for C1: line 1 of a two-line text contains the one requested
entity, so a match for it is reported. -/
theorem scan_document_conjunctive_witness :
    ∃ m ∈ scan_document (strL "Israel here\nUSA there") ["israel"],
      m.line_number = 0 + 1 :=
  (scan_document_conjunctive (strL "Israel here\nUSA there") ["israel"] 0
    (by decide) (by decide)).mpr (by decide)

end PatternMatcher
